import Mathlib

/-
Verification development for the hapi-postcss repository.

The repository serves CSS files over HTTP: `file.js` resolves a requested
path under an optional confinement directory, prepares HTTP headers
(stat + last-modified + etag), transforms the file contents through
postcss, and caches the transformed artifact in a process-wide cache;
`directory.js` tries an ordered list of candidate base directories with an
optional default-extension fallback; `index.js` registers the plugin and
provides the default in-memory cache.

The definitions below are a shallow embedding of that code.  Filesystem
and transformation primitives (fs open/stat/read, postcss.process, the
inert etag strategy) are external collaborators and are modelled as an
explicit environment of oracle functions; everything the repository's own
code does (control flow, cache reads and writes, header mutation, error
conversion) is translated directly from the source.
-/

set_option autoImplicit false

namespace HapiPostcss

/-! ## POSIX path model

The source calls Node's `path` module (`Path.resolve`, `Path.join`,
`Path.normalize`, `Path.isAbsolute`).  These are modelled here over
`List Char` with structural recursion so that every concrete instance
reduces in the kernel.  Only POSIX separators are modelled. -/

/-- Split a character list on `/`; the segments between separators. -/
def splitSlash : List Char → List (List Char)
  | [] => [[]]
  | c :: rest =>
    let r := splitSlash rest
    if c = '/' then [] :: r
    else
      match r with
      | [] => [[c]]
      | g :: gs => (c :: g) :: gs

/-- Non-empty path segments of a character list. -/
def segsOf (l : List Char) : List (List Char) :=
  (splitSlash l).filter (fun g => g ≠ [])

/-- One step of Node's `normalizeString`: push a segment onto the
segment stack, resolving `.` and `..`.  `allowAbove` is true for
relative paths, where leading `..` segments are kept. -/
def pushSeg (allowAbove : Bool) (stack : List (List Char)) (seg : List Char) :
    List (List Char) :=
  if seg = ['.'] then stack
  else if seg = ['.', '.'] then
    match stack with
    | top :: rest => if top = ['.', '.'] then seg :: top :: rest else rest
    | [] => if allowAbove then [seg] else []
  else seg :: stack

/-- Resolve `.` and `..` in a segment list (Node's `normalizeString`). -/
def normSegs (allowAbove : Bool) (segs : List (List Char)) : List (List Char) :=
  (segs.foldl (pushSeg allowAbove) []).reverse

/-- Interleave `/` between segments. -/
def joinSlash : List (List Char) → List Char
  | [] => []
  | [s] => s
  | s :: rest => s ++ '/' :: joinSlash rest

/-- Last character of a list, if any. -/
def lastChar? : List Char → Option Char
  | [] => none
  | [c] => some c
  | _ :: c :: rest => lastChar? (c :: rest)

/-- Model of Node `path.posix.isAbsolute`. -/
def isAbsolutePath (s : String) : Bool :=
  s.data.head? = some '/'

/-- Model of Node `path.posix.normalize`. -/
def posixNormalize (p : String) : String :=
  let l := p.data
  if l = [] then "."
  else
    let isAbs := l.head? = some '/'
    let hasTrail := lastChar? l = some '/'
    let core := joinSlash (normSegs (!isAbs) (segsOf l))
    if isAbs then
      if core = [] then "/"
      else String.mk ('/' :: core ++ (if hasTrail then ['/'] else []))
    else
      if core = [] then (if hasTrail then "./" else ".")
      else String.mk (core ++ (if hasTrail then ['/'] else []))

/-- Model of Node `path.posix.join` restricted to two arguments, as used
at `file.js` (`Path.join(confineDir, path)`). -/
def posixJoin (a b : String) : String :=
  if a = "" && b = "" then "."
  else if a = "" then posixNormalize b
  else if b = "" then posixNormalize a
  else posixNormalize (String.mk (a.data ++ '/' :: b.data))

/-- Model of Node `path.posix.resolve a b` under the assumption that `a`
is absolute (hapi guarantees `route.settings.files.relativeTo` is an
absolute directory).  The result is absolute and has no trailing
separator. -/
def posixResolve (a b : String) : String :=
  let combined : List Char :=
    if b.data.head? = some '/' then b.data
    else if b = "" then a.data
    else a.data ++ '/' :: b.data
  let core := joinSlash (normSegs false (segsOf combined))
  if core = [] then "/" else String.mk ('/' :: core)

/-- Test whether the first list is a prefix of the second. -/
def isPrefixList : List Char → List Char → Bool
  | [], _ => true
  | _ :: _, [] => false
  | a :: as, b :: bs => a = b && isPrefixList as bs

/-- Model of the JS check `p.lastIndexOf(q, 0) === 0`, i.e. the text of
`p` starts with the text of `q`. -/
def strStartsWith (p q : String) : Bool :=
  isPrefixList q.data p.data

/-- Path resolution performed by `exports.response` in `file.js`:
with a truthy `confine`, resolve the confinement directory against the
route's `relativeTo`, join or normalize the raw path, and null it out
when the textual prefix check fails; with a falsy `confine`, join or
normalize against `relativeTo` directly.  `none` for the `confine`
argument models a falsy JS confine value; `none` in the result is the
denied sentinel (`path = null`). -/
def fileResponsePath (rawPath relativeTo : String) (confine : Option String) :
    Option String :=
  match confine with
  | some conf =>
    let confineDir := posixResolve relativeTo conf
    let p := if isAbsolutePath rawPath then posixNormalize rawPath
             else posixJoin confineDir rawPath
    if strStartsWith p confineDir then some p else none
  | none =>
    some (if isAbsolutePath rawPath then posixNormalize rawPath
          else posixJoin relativeTo rawPath)

/-- Modelled from the spec: a path names a filesystem location inside
base directory `base` iff it is `base` itself or extends `base` at a
path-component boundary.  This is the spec's notion of "a path outside
B", used to compare against the code's textual prefix check. -/
def withinDir (base p : String) : Bool :=
  p = base || strStartsWith p (String.mk (base.data ++ ['/']))

/-! ## Errors

The repository distinguishes boom errors (carrying an HTTP status code)
from plain JS exceptions.  `typeError` models a non-boom `TypeError`,
in particular the one raised by calling `internals.close`, which
`file.js` never defines. -/

/-- Errors that flow through the handlers. -/
inductive JsError where
  /-- Model of `Boom.forbidden(null, data)`; the payload is `data.code`. -/
  | boomForbidden (code : Option String)
  /-- Model of `Boom.notFound(null, data)`; the payload models `data.path`. -/
  | boomNotFound (data : Option String)
  /-- Model of `Boom.internal(...)`. -/
  | boomInternal
  /-- Any other boom error (e.g. a boomified upstream failure). -/
  | boomOther
  /-- A non-boom JS exception, such as a `TypeError`. -/
  | typeError (msg : String)
  deriving DecidableEq, Repr

/-- Whether `Bounce.ignore(err, 'boom')` lets the error through (boom)
or rethrows it (non-boom). -/
def JsError.isBoom : JsError → Bool
  | .typeError _ => false
  | _ => true

/-- Status code `err.output.statusCode` of a boom error. -/
def JsError.statusCode : JsError → Nat
  | .boomForbidden _ => 403
  | .boomNotFound _ => 404
  | .boomInternal => 500
  | .boomOther => 500
  | .typeError _ => 500

/-- Check `isNotFound` from `directory.js`: the status code is 404. -/
def isNotFound (e : JsError) : Bool :=
  e.statusCode = 404

/-! ## Data model: settings, headers, responses, cache -/

/-- Per-route file settings used by `prepare`/`marshal`.  `start`
models `settings.start || 0` (Joi defaults it to 0); `endOpt` models
the optional `settings.end`; `confine` is the already-converted confine
value (`true` has been rewritten to `'.'` by `fileHandler` or
`fileMethod`, `none` is a falsy confine). -/
structure FileSettings where
  confine : Option String := some "."
  start : Nat := 0
  endOpt : Option Nat := none
  deriving DecidableEq, Repr

/-- The HTTP headers the code manipulates.  `contentLength` is the
byte-length header set through `response.bytes(...)`. -/
structure Headers where
  contentType : Option String := none
  lastModified : Option String := none
  etag : Option String := none
  contentLength : Option Int := none
  deriving DecidableEq, Repr

/-- State of the `Fs.File` object held in `response.source.file`:
no file object yet / object created but no open descriptor / descriptor
open / descriptor closed. -/
inductive FileState where
  | noFile
  | opened
  | closed
  deriving DecidableEq, Repr

/-- The response descriptor produced by `exports.response`:
`source.path` (the resolved path, `none` being the denied `null`
sentinel), the settings, the mutable headers, the file handle state,
and whether `marshal` has cleared `response.source`. -/
structure Response where
  path : Option String
  settings : FileSettings := {}
  headers : Headers := {}
  file : FileState := .noFile
  sourceCleared : Bool := false
  deriving DecidableEq, Repr

/-- A full cache record as written by `internals.marshal`:
`{ mtime, etag, data: <postcss result with css>, size }`.  `mtime` and
`etag` copy the header values at marshal time and may be absent
(`undefined`). -/
structure FullRecord where
  mtime : Option String
  etag : Option String
  css : String
  size : Nat
  deriving DecidableEq, Repr

/-- A value stored in the plugin cache.  `record` is written by
`internals.marshal`; `responseDescriptor` is written by the
`fileHandler` closure, which stores the whole response descriptor. -/
inductive CacheValue where
  | record (r : FullRecord)
  | responseDescriptor (resp : Response)
  deriving DecidableEq, Repr

/-- JS property read `cached.mtime` (`none` = `undefined`). -/
def CacheValue.mtimeProp : CacheValue → Option String
  | .record r => r.mtime
  | .responseDescriptor _ => none

/-- JS property read `cached.etag`. -/
def CacheValue.etagProp : CacheValue → Option String
  | .record r => r.etag
  | .responseDescriptor _ => none

/-- JS property read `cached.data`: the postcss result object, present
(and truthy) exactly on full records; surfaced as its `css` string. -/
def CacheValue.dataProp : CacheValue → Option String
  | .record r => some r.css
  | .responseDescriptor _ => none

/-- Whether a cache value is a full `{mtime, etag, data, size}` record. -/
def CacheValue.isFullRecord : CacheValue → Bool
  | .record _ => true
  | .responseDescriptor _ => false

/-- The plugin cache (`inMemoryCache` in `index.js`): a string-keyed
store with `get` returning `null` when the key is absent.  Assignment
is modelled by prepending; `cacheGet` takes the most recent binding,
which is observationally JS object-key overwrite. -/
abbrev Cache := List (String × CacheValue)

/-- Lookup `cache.get(key)`: most recent binding, or `none` (JS `null`). -/
def cacheGet : Cache → String → Option CacheValue
  | [], _ => none
  | (k, v) :: rest, key => if k = key then some v else cacheGet rest key

/-- Write `cache.set(key, value)`. -/
def cacheSet (c : Cache) (key : String) (v : CacheValue) : Cache :=
  (key, v) :: c

/-! ## External collaborators

Filesystem primitives, the inert etag strategy, and the postcss
transformation are outside the repository; they are modelled as an
environment of oracle functions parameterizing the embedded code. -/

/-- The part of an `fs` stat the code reads: `stat.mtime.toUTCString()`
(dates are opaque, so the UTC string is carried directly) and
`stat.size`. -/
structure Stat where
  mtimeStr : String
  size : Nat
  deriving DecidableEq, Repr

/-- Environment of external collaborators for one filesystem state.
`openStat` models `Fs.File#openStat('r')` (inert releases the
descriptor itself when the post-open fstat fails, so a failure leaves
no open descriptor); `etagApply` models `Etag.apply` and yields the
etag tag to set, `none` when the etag method is disabled; `readFile`
models `fs.promises.readFile` followed by `postcss.process`, yielding
the resulting `css` string. -/
structure FsEnv where
  openStat : String → Except JsError Stat
  etagApply : String → Stat → Except JsError (Option String)
  readFile : String → Except JsError String

/-- hapi's `response.etag(tag, ...)` stores the tag wrapped in double
quotes in the `etag` header. -/
def quoteEtag (tag : String) : String :=
  String.mk ('"' :: tag.data ++ ['"'])

/-- Application of `response.type` guarded by the content-type check. -/
def setTypeIfUnset (h : Headers) : Headers :=
  if h.contentType = none then { h with contentType := some "text/css" } else h

/-- Headers after the cache-hit branch of `internals.prepare`:
content-type if unset, then `last-modified` from `cached.mtime` when
truthy, then `response.etag(cached.etag, { vary: true })` when truthy. -/
def hitHeaders (h : Headers) (v : CacheValue) : Headers :=
  let h0 := setTypeIfUnset h
  let h1 := match v.mtimeProp with
            | some m => { h0 with lastModified := some m }
            | none => h0
  match v.etagProp with
  | some t => { h1 with etag := some (quoteEtag t) }
  | none => h1

/-- Result of `internals.prepare`: the mutated response, the outcome
(`ok` means the promise resolved with the response), and whether a
filesystem open/stat was performed. -/
structure PrepResult where
  resp : Response
  outcome : Except JsError Unit
  didOpenStat : Bool
  deriving Repr

/-- Model of `internals.prepare` from `file.js`.  A `null` path fails forbidden
with code `EACCES` before any cache or filesystem access; a cache hit
(any record shape) applies cached headers and returns without touching
the filesystem; a cache miss opens and stats the file and applies
fresh headers.  The catch block calls `internals.close(response)`,
which `file.js` never defines, so every failure reaching the catch is
replaced by a `TypeError` and the file descriptor, when open, stays
open. -/
def prepareFn (env : FsEnv) (cache : Cache) (resp : Response) : PrepResult :=
  match resp.path with
  | none => ⟨resp, .error (.boomForbidden (some "EACCES")), false⟩
  | some path =>
    match cacheGet cache path with
    | some cached =>
      ⟨{ resp with headers := hitHeaders resp.headers cached }, .ok (), false⟩
    | none =>
      match env.openStat path with
      | .error _ =>
        ⟨{ resp with file := .noFile },
         .error (.typeError "internals.close is not a function"), true⟩
      | .ok st =>
        let h1 := { setTypeIfUnset resp.headers with lastModified := some st.mtimeStr }
        match env.etagApply path st with
        | .ok none => ⟨{ resp with headers := h1, file := .opened }, .ok (), true⟩
        | .ok (some t) =>
          ⟨{ resp with headers := { h1 with etag := some (quoteEtag t) }, file := .opened },
           .ok (), true⟩
        | .error _ =>
          ⟨{ resp with headers := h1, file := .opened },
           .error (.typeError "internals.close is not a function"), true⟩

/-- The byte-length computation of `internals.marshal`:
`end - start + 1` when `settings.end !== undefined`, else
`size - start`. -/
def bytesFor (s : FileSettings) (size : Nat) : Int :=
  match s.endOpt with
  | some e => (e : Int) - (s.start : Int) + 1
  | none => (size : Int) - (s.start : Int)

/-- Result of `internals.marshal`: the mutated response, the new cache
state, the outcome (the emitted `css` body on success), and whether
`internals.processCSS` (read + transformation) was invoked. -/
structure MarshalResult where
  resp : Response
  cache : Cache
  outcome : Except JsError String
  didProcess : Bool
  deriving Repr

/-- Model of `internals.marshal` from `file.js`.  With a cached value carrying a
truthy `data` (a full record), it replays `cached.mtime`, sets the
byte-length header from `cached.size`, and emits `cached.data.css`
without reading the file; otherwise it reads and transforms the file,
stores a full record under the resolved path, sets the byte-length
header from the fresh `css.length`, and emits the fresh css.  On
success `response.source` is cleared. -/
def marshalFn (env : FsEnv) (cache : Cache) (resp : Response) : MarshalResult :=
  match resp.path with
  | none =>
    -- Unreachable after a successful prepare: `readFile(null)` rejects.
    ⟨resp, cache, .error (.typeError "path must be a string"), true⟩
  | some path =>
    match cacheGet cache path with
    | some (.record r) =>
      let h := { resp.headers with
                 lastModified := r.mtime,
                 contentLength := some (bytesFor resp.settings r.size) }
      ⟨{ resp with headers := h, sourceCleared := true }, cache, .ok r.css, false⟩
    | some (.responseDescriptor _) | none =>
      match env.readFile path with
      | .error e => ⟨resp, cache, .error e, true⟩
      | .ok css =>
        let rec' : FullRecord :=
          ⟨resp.headers.lastModified, resp.headers.etag, css, css.length⟩
        let h := { resp.headers with
                   contentLength := some (bytesFor resp.settings css.length) }
        ⟨{ resp with headers := h, sourceCleared := true },
         cacheSet cache path (.record rec'), .ok css, true⟩

/-- Outcome of a whole request for an already-resolved path: prepare
followed, on success, by marshal. -/
structure RunResult where
  cache : Cache
  outcome : Except JsError String
  didOpenStat : Bool
  didProcess : Bool
  headers : Headers
  deriving Repr

/-- One request through the two-phase lifecycle for a resolved path. -/
def runRequest (env : FsEnv) (cache : Cache) (path : Option String)
    (s : FileSettings) : RunResult :=
  let resp : Response := { path := path, settings := s }
  let p := prepareFn env cache resp
  match p.outcome with
  | .error e => ⟨cache, .error e, p.didOpenStat, false, p.resp.headers⟩
  | .ok () =>
    let m := marshalFn env cache p.resp
    ⟨m.cache, m.outcome, p.didOpenStat, m.didProcess, m.resp.headers⟩

/-! ## The css file handler closure (`exports.fileHandler`) -/

/-- Result of one invocation of the handler closure returned by
`exports.fileHandler`: the cache afterwards, the value returned to the
framework, and whether `exports.response` was invoked to build a fresh
descriptor. -/
structure HandlerStep where
  cache : Cache
  result : CacheValue
  didBuild : Bool
  deriving Repr

/-- One invocation of the `fileHandler` closure for a request whose
configured path evaluates to `pathValue` (`settings.path`, or the value
returned by a path function).  The cache is consulted and written with
`pathValue` itself — the configured path, before any confinement
resolution — and the stored value is the whole response descriptor. -/
def fileHandlerStep (relativeTo : String) (s : FileSettings) (pathValue : String)
    (cache : Cache) : HandlerStep :=
  match cacheGet cache pathValue with
  | some v => ⟨cache, v, false⟩
  | none =>
    let resp : Response :=
      { path := fileResponsePath pathValue relativeTo s.confine, settings := s }
    ⟨cacheSet cache pathValue (.responseDescriptor resp), .responseDescriptor resp, true⟩

/-! ## The directory handler (`directory.js`) -/

/-- Model of `exports.load` from `file.js` as used by the directory handler:
build a preloaded response descriptor (confined to the candidate
directory) and run `internals.prepare` on it, resolving to the
response. -/
def fileLoad (env : FsEnv) (cache : Cache) (rawPath relativeTo : String)
    (confine : Option String) (s : FileSettings) : Except JsError Response :=
  let resp : Response :=
    { path := fileResponsePath rawPath relativeTo confine,
      settings := { s with confine := confine } }
  let p := prepareFn env cache resp
  match p.outcome with
  | .ok () => .ok p.resp
  | .error e => .error e

/-- The inner `each` closure of the directory handler: attempt a load
of the selection; on a non-boom error rethrow (`Bounce.ignore`); on a
boom not-found with a configured default extension, strip a trailing
slash when the request path had one and retry once with
`'.' + extension` appended, propagating that retry's outcome; any other
boom error is rethrown. -/
def dirEach (loadF : String → Except JsError Response) (selection : String)
    (hasTrailingSlash : Bool) (defaultExt : Option String) :
    Except JsError Response :=
  match loadF selection with
  | .ok a => .ok a
  | .error e =>
    if e.isBoom = false then .error e
    else if isNotFound e then
      match defaultExt with
      | none => .error e
      | some ext =>
        let p2 := if hasTrailingSlash then String.mk selection.data.dropLast
                  else selection
        loadF (String.mk (p2.data ++ '.' :: ext.data))
    else .error e

/-- The candidate loop of the directory handler (`directory.js`):
try `each` on every candidate in order; a success returns immediately;
a non-boom error is rethrown by `Bounce.ignore`; a boom error that is
not a 404, or that arose on the last candidate, is thrown; otherwise
the next candidate is tried.  An empty list falls through to
`Boom.notFound`. -/
def dirLoop (eachF : String → Except JsError Response) :
    List String → Except JsError Response
  | [] => .error (.boomNotFound none)
  | d :: rest =>
    match eachF d with
    | .ok a => .ok a
    | .error e =>
      if e.isBoom = false then .error e
      else if isNotFound e = false then .error e
      else if rest = [] then .error e
      else dirLoop eachF rest

/-- Whether an `Except` result is a success. -/
def isOkResult {α : Type} : Except JsError α → Bool
  | .ok _ => true
  | .error _ => false

/-! ## Concrete instances

Fixed environments and values used to evaluate the embedded code at
concrete inputs. -/

/-- A fixed stat result. -/
def stat0 : Stat := ⟨"Thu, 01 Jan 1970 00:00:00 GMT", 4⟩

/-- A filesystem where every file exists, the etag strategy yields
`tag0`, and transformation yields `abcd`. -/
def envAllOk : FsEnv :=
  ⟨fun _ => .ok stat0, fun _ _ => .ok (some "tag0"), fun _ => .ok "abcd"⟩

/-- A filesystem where the file opens and stats fine but the etag
computation fails after the descriptor is open. -/
def envEtagFails : FsEnv :=
  ⟨fun _ => .ok stat0, fun _ _ => .error .boomOther, fun _ => .ok "abcd"⟩

/-- A filesystem where every open fails with the not-found boom that
inert raises for a missing file. -/
def envMissing : FsEnv :=
  ⟨fun _ => .error (.boomNotFound none), fun _ _ => .ok none,
   fun _ => .error (.boomNotFound none)⟩

/-- A filesystem where only `/www/styles.css` exists (the
default-extension scenario: `styles` is missing, `styles.css` is
present); the etag method is disabled. -/
def envStylesOnly : FsEnv :=
  ⟨fun p => if p = "/www/styles.css" then .ok stat0
            else .error (.boomNotFound (some p)),
   fun _ _ => .ok none, fun _ => .ok "body"⟩

/-- A successful response used by the directory-loop instances. -/
def respB : Response := { path := some "/www/b" }

/-- A candidate evaluation where `/a` is missing, `/b` succeeds, and
any other candidate fails with a non-404 boom. -/
def each7 : String → Except JsError Response := fun d =>
  if d = "/a" then .error (.boomNotFound (some "/a"))
  else if d = "/b" then .ok respB
  else .error .boomOther

/-- A candidate evaluation where every candidate is missing. -/
def eachAllMissing : String → Except JsError Response := fun d =>
  .error (.boomNotFound (some d))

/-- The load function of the default-extension scenario: a directory
candidate confined to `.` under `/www`, over `envStylesOnly`. -/
def loadStyles : String → Except JsError Response := fun raw =>
  fileLoad envStylesOnly [] raw "/www" (some ".") {}

/-- A fixed full cache record. -/
def rec0 : FullRecord := ⟨some "M", some "E", "body", 4⟩

/-- A cache holding `rec0` under the key `k`. -/
def cacheWithRec0 : Cache := [("k", .record rec0)]

/-! ## Helper lemmas -/

/-- Reading back a freshly written cache key. -/
theorem cacheGet_set_self (c : Cache) (k : String) (v : CacheValue) :
    cacheGet (cacheSet c k v) k = some v := by
  simp [cacheGet, cacheSet]

/-- The cache-hit branch of `prepare` starting from fresh headers sets
the fixed content type and transfers the cached metadata. -/
theorem hitHeaders_default (v : CacheValue) :
    hitHeaders {} v =
      { contentType := some "text/css", lastModified := v.mtimeProp,
        etag := v.etagProp.map quoteEtag, contentLength := none } := by
  cases v with
  | record r =>
    obtain ⟨mt, et, cs, sz⟩ := r
    cases mt <;> cases et <;> rfl
  | responseDescriptor d => rfl

/-- Evaluation of `prepare` on a cache hit. -/
theorem prepareFn_hit (env : FsEnv) (c : Cache) (resp : Response) (p : String)
    (v : CacheValue) (hp : resp.path = some p) (hc : cacheGet c p = some v) :
    prepareFn env c resp =
      ⟨{ resp with headers := hitHeaders resp.headers v }, .ok (), false⟩ := by
  simp [prepareFn, hp, hc]

/-- Evaluation of `prepare` on a cache miss with a successful open,
stat and etag computation. -/
theorem prepareFn_miss (env : FsEnv) (c : Cache) (resp : Response) (p : String)
    (st : Stat) (tag : Option String) (hp : resp.path = some p)
    (hmiss : cacheGet c p = none) (hstat : env.openStat p = .ok st)
    (hetag : env.etagApply p st = .ok tag) :
    prepareFn env c resp =
      ⟨{ resp with
          headers := { contentType := (setTypeIfUnset resp.headers).contentType,
                       lastModified := some st.mtimeStr,
                       etag := match tag with
                               | some t => some (quoteEtag t)
                               | none => resp.headers.etag,
                       contentLength := resp.headers.contentLength },
          file := .opened }, .ok (), true⟩ := by
  cases tag <;> simp [prepareFn, hp, hmiss, hstat, hetag, setTypeIfUnset] <;>
    split <;> simp

/-- Evaluation of `marshal` on a full-record cache hit. -/
theorem marshalFn_hit (env : FsEnv) (c : Cache) (resp : Response) (p : String)
    (r : FullRecord) (hp : resp.path = some p)
    (hc : cacheGet c p = some (.record r)) :
    marshalFn env c resp =
      ⟨{ resp with
          headers := { resp.headers with
                        lastModified := r.mtime,
                        contentLength := some (bytesFor resp.settings r.size) },
          sourceCleared := true }, c, .ok r.css, false⟩ := by
  simp [marshalFn, hp, hc]

/-- Evaluation of `marshal` on a cache miss with a successful read and
transformation: a full record is written under the resolved path. -/
theorem marshalFn_miss (env : FsEnv) (c : Cache) (resp : Response) (p css : String)
    (hp : resp.path = some p) (hmiss : cacheGet c p = none)
    (hread : env.readFile p = .ok css) :
    marshalFn env c resp =
      ⟨{ resp with
          headers := { resp.headers with
                       contentLength := some (bytesFor resp.settings css.length) },
          sourceCleared := true },
       cacheSet c p
         (.record ⟨resp.headers.lastModified, resp.headers.etag, css, css.length⟩),
       .ok css, true⟩ := by
  simp [marshalFn, hp, hmiss, hread]

/-- A whole request against a full record in the cache: no write, the
cached css is emitted, and the headers replay the record's metadata. -/
theorem runRequest_hit_record (env : FsEnv) (c : Cache) (p : String)
    (s : FileSettings) (r : FullRecord) (h : cacheGet c p = some (.record r)) :
    runRequest env c (some p) s =
      ⟨c, .ok r.css, false, false,
       { contentType := some "text/css", lastModified := r.mtime,
         etag := r.etag.map quoteEtag,
         contentLength := some (bytesFor s r.size) }⟩ := by
  have hprep := prepareFn_hit env c { path := some p, settings := s } p (.record r) rfl h
  simp only [runRequest]
  rw [hprep]
  dsimp only
  rw [marshalFn_hit env c _ p r rfl h]
  rw [hitHeaders_default]
  rfl

/-- A whole first request on a cache miss with a healthy filesystem:
the artifact is computed and a full record is written. -/
theorem runRequest_miss (env : FsEnv) (c : Cache) (p css : String)
    (s : FileSettings) (st : Stat) (tag : Option String)
    (hmiss : cacheGet c p = none) (hstat : env.openStat p = .ok st)
    (hetag : env.etagApply p st = .ok tag) (hread : env.readFile p = .ok css) :
    runRequest env c (some p) s =
      ⟨cacheSet c p (.record ⟨some st.mtimeStr, tag.map quoteEtag, css, css.length⟩),
       .ok css, true, true,
       { contentType := some "text/css", lastModified := some st.mtimeStr,
         etag := tag.map quoteEtag,
         contentLength := some (bytesFor s css.length) }⟩ := by
  have hprep := prepareFn_miss env c { path := some p, settings := s } p st tag rfl
    hmiss hstat hetag
  simp only [runRequest]
  rw [hprep]
  dsimp only
  rw [marshalFn_miss env c _ p css rfl hmiss hread]
  cases tag <;> rfl

/-! ## Claim theorems -/

/-- C1 (amended): with a truthy confine, path resolution in
`exports.response` returns either the denied sentinel or a path whose
text has the normalized confinement directory as a textual prefix.
The original claim's stronger guarantee — that no returned path names
a filesystem location outside the confinement directory — fails; see
the counterexample. -/
theorem c1_confinement_textual (rawPath relativeTo conf p : String)
    (h : fileResponsePath rawPath relativeTo (some conf) = some p) :
    strStartsWith p (posixResolve relativeTo conf) = true := by
  unfold fileResponsePath at h
  dsimp only at h
  split at h <;> split at h
  case isTrue.isTrue hc =>
    injection h with h2
    exact h2 ▸ hc
  case isTrue.isFalse => exact Option.noConfusion h
  case isFalse.isTrue hc =>
    injection h with h2
    exact h2 ▸ hc
  case isFalse.isFalse => exact Option.noConfusion h

/-- C1 counterexample: the absolute raw path `/base2/secret` under
confinement directory `/base` passes the textual prefix check and is
returned, although it names a filesystem location outside `/base` —
so an absolute path outside the confinement directory is not denied. -/
theorem c1_counterexample :
    fileResponsePath "/base2/secret" "/x" (some "/base") = some "/base2/secret"
      ∧ withinDir "/base" "/base2/secret" = false :=
  ⟨rfl, rfl⟩

/-- Witness for the amended C1 theorem at the concrete raw path
`styles` confined to `.` under `/www`. -/
theorem c1_confinement_textual_witness :
    strStartsWith "/www/styles" (posixResolve "/www" ".") = true :=
  c1_confinement_textual "styles" "/www" "." "/www/styles" rfl

/-- C3 (code bug): a failure in `prepare` after the file handle is
opened (here the etag computation fails) does not release the handle:
the catch block calls `internals.close`, which `file.js` never
defines, so a `TypeError` propagates in place of the original error
and the response's file handle is still open. -/
theorem c3_handle_leak :
    (prepareFn envEtagFails [] { path := some "/www/a.css" }).outcome =
        .error (.typeError "internals.close is not a function")
      ∧ (prepareFn envEtagFails [] { path := some "/www/a.css" }).resp.file =
          .opened :=
  ⟨rfl, rfl⟩

/-- C9 (code bug): a denied (null) resolved path makes `prepare` fail
forbidden with code `EACCES` without any filesystem access — that part
holds — but a missing file does not surface as a not-found error: the
undefined `internals.close` turns inert's not-found boom into a
`TypeError`, so the claim's "not-found kind produced for a missing
file" does not exist in this code. -/
theorem c9_denied_forbidden :
    (prepareFn envMissing [] { path := none }).outcome =
        .error (.boomForbidden (some "EACCES"))
      ∧ (prepareFn envMissing [] { path := none }).didOpenStat = false
      ∧ (prepareFn envMissing [] { path := some "/www/missing.css" }).outcome =
          .error (.typeError "internals.close is not a function")
      ∧ isNotFound (.typeError "internals.close is not a function") = false
      ∧ JsError.boomForbidden (some "EACCES") ≠
          JsError.typeError "internals.close is not a function" :=
  ⟨rfl, rfl, rfl, rfl, by decide⟩

/-- C8 (code bug): in the default-extension scenario — selection
`styles` missing, `styles.css` present, `defaultExtension = 'css'` —
the directory handler's `each` does not return the content of
`styles.css`: the initial load's not-found has been converted into a
non-boom `TypeError` by the undefined `internals.close`, `Bounce`
rethrows it, and the `.css` retry (which would succeed) never runs. -/
theorem c8_default_extension_broken :
    dirEach loadStyles "styles" false (some "css") =
        .error (.typeError "internals.close is not a function")
      ∧ isOkResult (loadStyles "styles.css") = true :=
  ⟨rfl, rfl⟩

/-- C2: a cache hit at prepare time applies the cached last-modified
and etag and sets the content type without any filesystem open or
stat; and after a first successful full computation for a resolved
path, a second request for that path performs neither a stat in
prepare nor a transformation call in marshal. -/
theorem c2_cache_short_circuits
    (env : FsEnv) (c c2 : Cache) (p p2 : String) (s s2 : FileSettings)
    (st : Stat) (tag : Option String) (css : String) (v : CacheValue)
    (hhit : cacheGet c2 p2 = some v)
    (hmiss : cacheGet c p = none)
    (hstat : env.openStat p = .ok st)
    (hetag : env.etagApply p st = .ok tag)
    (hread : env.readFile p = .ok css) :
    (prepareFn env c2 { path := some p2, settings := s2 }).didOpenStat = false
      ∧ (prepareFn env c2 { path := some p2, settings := s2 }).outcome = .ok ()
      ∧ (prepareFn env c2 { path := some p2, settings := s2 }).resp.headers =
          { contentType := some "text/css", lastModified := v.mtimeProp,
            etag := v.etagProp.map quoteEtag, contentLength := none }
      ∧ (runRequest env c (some p) s).outcome = .ok css
      ∧ (runRequest env (runRequest env c (some p) s).cache (some p) s).didOpenStat
          = false
      ∧ (runRequest env (runRequest env c (some p) s).cache (some p) s).didProcess
          = false
      ∧ (runRequest env (runRequest env c (some p) s).cache (some p) s).outcome
          = .ok css := by
  have h1 := prepareFn_hit env c2 { path := some p2, settings := s2 } p2 v rfl hhit
  have h2 := runRequest_miss env c p css s st tag hmiss hstat hetag hread
  have h3 : cacheGet (runRequest env c (some p) s).cache p =
      some (.record ⟨some st.mtimeStr, tag.map quoteEtag, css, css.length⟩) := by
    rw [h2]
    exact cacheGet_set_self ..
  have h4 := runRequest_hit_record env (runRequest env c (some p) s).cache p s _ h3
  refine ⟨?_, ?_, ?_, ?_, ?_, ?_, ?_⟩
  · rw [h1]
  · rw [h1]
  · rw [h1]
    dsimp only
    rw [hitHeaders_default]
  · rw [h2]
  · rw [h4]
  · rw [h4]
  · rw [h4]

/-- Witness for C2 at a concrete cache, path and filesystem. -/
theorem c2_cache_short_circuits_witness :
    (prepareFn envAllOk cacheWithRec0 { path := some "k" }).didOpenStat = false
      ∧ (runRequest envAllOk (runRequest envAllOk [] (some "/www/a.css") {}).cache
          (some "/www/a.css") {}).didProcess = false :=
  ⟨(c2_cache_short_circuits envAllOk [] cacheWithRec0 "/www/a.css" "k" {} {} stat0
      (some "tag0") "abcd" (.record rec0) rfl rfl rfl rfl rfl).1,
   (c2_cache_short_circuits envAllOk [] cacheWithRec0 "/www/a.css" "k" {} {} stat0
      (some "tag0") "abcd" (.record rec0) rfl rfl rfl rfl rfl).2.2.2.2.2.1⟩

/-- C5: once a full record is cached for a resolved path, every later
prepare/marshal run for that path replays the stored last-modified and
etag and emits the stored css; the record itself is left unchanged, so
the replayed values stay constant across any number of later requests
even when the underlying filesystem changes (a different environment
on the second run), and the full record is never replaced by any other
record shape. -/
theorem c5_record_pinned
    (env env' : FsEnv) (c : Cache) (p : String) (r : FullRecord)
    (s s' : FileSettings) (h : cacheGet c p = some (.record r)) :
    cacheGet (runRequest env c (some p) s).cache p = some (.record r)
      ∧ (runRequest env c (some p) s).headers.lastModified = r.mtime
      ∧ (runRequest env c (some p) s).headers.etag = r.etag.map quoteEtag
      ∧ (runRequest env c (some p) s).outcome = .ok r.css
      ∧ (runRequest env' (runRequest env c (some p) s).cache
          (some p) s').headers.lastModified = r.mtime
      ∧ (runRequest env' (runRequest env c (some p) s).cache
          (some p) s').headers.etag = r.etag.map quoteEtag
      ∧ cacheGet (runRequest env' (runRequest env c (some p) s).cache
          (some p) s').cache p = some (.record r) := by
  have h1 := runRequest_hit_record env c p s r h
  have hc1 : cacheGet (runRequest env c (some p) s).cache p = some (.record r) := by
    rw [h1]
    exact h
  have h2 := runRequest_hit_record env' (runRequest env c (some p) s).cache p s' r hc1
  exact ⟨hc1, by rw [h1], by rw [h1], by rw [h1], by rw [h2], by rw [h2],
    by rw [h2]; exact hc1⟩

/-- Witness for C5 at a concrete record, with the second request run
against a filesystem where every file is missing. -/
theorem c5_record_pinned_witness :
    (runRequest envAllOk cacheWithRec0 (some "k") {}).headers.etag =
        some (quoteEtag "E")
      ∧ cacheGet (runRequest envMissing (runRequest envAllOk cacheWithRec0
          (some "k") {}).cache (some "k") {}).cache "k" = some (.record rec0) :=
  ⟨(c5_record_pinned envAllOk envMissing cacheWithRec0 "k" rec0 {} {} rfl).2.2.1,
   (c5_record_pinned envAllOk envMissing cacheWithRec0 "k" rec0 {} {} rfl).2.2.2.2.2.2⟩

/-- C6: the byte-length header set by marshal equals `end - start + 1`
when the end setting is defined and `size - start` when it is not,
where size is the cached record's size on the cache-hit path and the
freshly computed css length on the cache-miss path. -/
theorem c6_bytes_header
    (env : FsEnv) (c : Cache) (p css : String) (s : FileSettings) (r : FullRecord) :
    (cacheGet c p = some (.record r) →
      (marshalFn env c { path := some p, settings := s }).resp.headers.contentLength =
        some (match s.endOpt with
              | some e => (e : Int) - (s.start : Int) + 1
              | none => (r.size : Int) - (s.start : Int)))
    ∧ (cacheGet c p = none → env.readFile p = .ok css →
      (marshalFn env c { path := some p, settings := s }).resp.headers.contentLength =
        some (match s.endOpt with
              | some e => (e : Int) - (s.start : Int) + 1
              | none => (css.length : Int) - (s.start : Int))) := by
  constructor
  · intro hc
    rw [marshalFn_hit env c _ p r rfl hc]
    cases he : s.endOpt <;> simp [bytesFor, he]
  · intro hc hr
    rw [marshalFn_miss env c _ p css rfl hc hr]
    cases he : s.endOpt <;> simp [bytesFor, he]

/-- Witness for C6: with default settings (start 0, no end), the
byte-length header is the cached size 4 on the hit path and the fresh
css length 4 on the miss path. -/
theorem c6_bytes_header_witness :
    (marshalFn envAllOk cacheWithRec0 { path := some "k" }).resp.headers.contentLength
        = some 4
      ∧ (marshalFn envAllOk []
          { path := some "/www/a.css" }).resp.headers.contentLength = some 4 :=
  ⟨(c6_bytes_header envAllOk cacheWithRec0 "k" "abcd" {} rec0).1 rfl,
   (c6_bytes_header envAllOk [] "/www/a.css" "abcd" {} rec0).2 rfl rfl⟩

/-- C4 (amended): every cache write performed by `marshal` uses the
resolved path as key and stores a full `{mtime, etag, data, size}`
record, but the css `fileHandler` additionally writes entire response
descriptors — not records — into the same cache, keyed by the
configured (pre-resolution) path, so not every write is a full record
keyed by a resolved path. -/
theorem c4_cache_write_shapes (env : FsEnv) (c : Cache) (resp : Response)
    (relativeTo : String) (s : FileSettings) (pathValue : String) :
    ((marshalFn env c resp).cache = c
      ∨ ∃ p r, resp.path = some p
          ∧ (marshalFn env c resp).cache = cacheSet c p (.record r))
    ∧ ((fileHandlerStep relativeTo s pathValue c).cache = c
      ∨ ∃ d, (fileHandlerStep relativeTo s pathValue c).cache =
          cacheSet c pathValue (.responseDescriptor d)) := by
  constructor
  · match hp : resp.path with
    | none =>
      left
      simp [marshalFn, hp]
    | some p =>
      match hc : cacheGet c p with
      | some (.record r) =>
        left
        rw [marshalFn_hit env c resp p r hp hc]
      | some (.responseDescriptor d) =>
        match hr : env.readFile p with
        | .error e =>
          left
          simp [marshalFn, hp, hc, hr]
        | .ok css =>
          right
          refine ⟨p, ⟨resp.headers.lastModified, resp.headers.etag, css, css.length⟩,
            rfl, ?_⟩
          simp [marshalFn, hp, hc, hr]
      | none =>
        match hr : env.readFile p with
        | .error e =>
          left
          simp [marshalFn, hp, hc, hr]
        | .ok css =>
          right
          refine ⟨p, ⟨resp.headers.lastModified, resp.headers.etag, css, css.length⟩,
            rfl, ?_⟩
          rw [marshalFn_miss env c resp p css hp hc hr]
  · match hg : cacheGet c pathValue with
    | some v =>
      left
      simp [fileHandlerStep, hg]
    | none =>
      right
      refine ⟨{ path := fileResponsePath pathValue relativeTo s.confine,
                settings := s }, ?_⟩
      simp [fileHandlerStep, hg]

/-- C4 counterexample: one invocation of the css file handler with
configured path `a.css` under route root `/www` writes a response
descriptor — not a full record — keyed by the configured path `a.css`,
and writes nothing under the resolved path `/www/a.css`; the stored
descriptor carries the resolved path only inside itself. -/
theorem c4_counterexample :
    (cacheGet (fileHandlerStep "/www" {} "a.css" []).cache "a.css").map
        CacheValue.isFullRecord = some false
      ∧ cacheGet (fileHandlerStep "/www" {} "a.css" []).cache "/www/a.css" = none
      ∧ (fileHandlerStep "/www" {} "a.css" []).result =
          .responseDescriptor { path := some "/www/a.css", settings := {} } :=
  ⟨rfl, rfl, rfl⟩

/-- Skipping a leading candidate whose attempt fails with a not-found
boom leaves the loop result unchanged when more candidates remain. -/
theorem dirLoop_cons_notFound (eachF : String → Except JsError Response)
    (x : String) (rest : List String) (dat : Option String)
    (hx : eachF x = .error (.boomNotFound dat)) (hne : rest ≠ []) :
    dirLoop eachF (x :: rest) = dirLoop eachF rest := by
  cases rest with
  | nil => exact absurd rfl hne
  | cons y ys =>
    simp [dirLoop, hx, JsError.isBoom, isNotFound, JsError.statusCode]

/-- C7: the directory handler's candidate loop tries candidates
strictly in the given order and returns the first successful
resolution; a non-not-found error (non-boom, or a boom that is not a
404) from any candidate aborts the loop and is surfaced immediately;
and when every candidate yields not-found, the surfaced error is a
not-found error. -/
theorem c7_candidate_loop
    (eachF : String → Except JsError Response) (pre post paths : List String)
    (d : String) (a : Response) (e : JsError) :
    ((∀ x ∈ pre, ∃ dat, eachF x = .error (.boomNotFound dat)) →
      eachF d = .ok a → dirLoop eachF (pre ++ d :: post) = .ok a)
    ∧ ((∀ x ∈ pre, ∃ dat, eachF x = .error (.boomNotFound dat)) →
      eachF d = .error e → (e.isBoom = false ∨ isNotFound e = false) →
      dirLoop eachF (pre ++ d :: post) = .error e)
    ∧ ((∀ x ∈ paths, ∃ dat, eachF x = .error (.boomNotFound dat)) →
      ∃ dat, dirLoop eachF paths = .error (.boomNotFound dat)) := by
  refine ⟨?_, ?_, ?_⟩
  · induction pre with
    | nil =>
      intro _ hd
      simp [dirLoop, hd]
    | cons x xs ih =>
      intro hpre hd
      obtain ⟨dat, hx⟩ := hpre x (by simp)
      have hrec := ih (fun y hy => hpre y (by simp [hy])) hd
      simp [dirLoop, hx, JsError.isBoom, isNotFound, JsError.statusCode, hrec]
  · induction pre with
    | nil =>
      intro _ hd hkind
      rcases hkind with hk | hk
      · simp [dirLoop, hd, hk]
      · cases hb : e.isBoom <;> simp [dirLoop, hd, hk, hb]
    | cons x xs ih =>
      intro hpre hd hkind
      obtain ⟨dat, hx⟩ := hpre x (by simp)
      have hrec := ih (fun y hy => hpre y (by simp [hy])) hd hkind
      simp [dirLoop, hx, JsError.isBoom, isNotFound, JsError.statusCode, hrec]
  · induction paths with
    | nil =>
      intro _
      exact ⟨none, rfl⟩
    | cons x xs ih =>
      intro hpre
      obtain ⟨dat, hx⟩ := hpre x (by simp)
      cases xs with
      | nil =>
        exact ⟨dat, by simp [dirLoop, hx, JsError.isBoom, isNotFound,
          JsError.statusCode]⟩
      | cons y ys =>
        obtain ⟨dat2, hrec⟩ := ih (fun z hz => hpre z (by simp [hz]))
        refine ⟨dat2, ?_⟩
        rw [dirLoop_cons_notFound eachF x (y :: ys) dat hx (by simp)]
        exact hrec

/-- Witness for C7: first success after a missing candidate; immediate
surfacing of a non-404 boom; not-found surfaced when every candidate
is missing. -/
theorem c7_candidate_loop_witness :
    dirLoop each7 ["/a", "/b", "/z"] = .ok respB
      ∧ dirLoop each7 ["/a", "/c"] = .error .boomOther
      ∧ (∃ dat, dirLoop eachAllMissing ["/a", "/b"] = .error (.boomNotFound dat)) :=
  ⟨(c7_candidate_loop each7 ["/a"] ["/z"] [] "/b" respB .boomOther).1
      (by intro x hx; simp at hx; subst hx; exact ⟨some "/a", rfl⟩) rfl,
   (c7_candidate_loop each7 ["/a"] [] [] "/c" respB .boomOther).2.1
      (by intro x hx; simp at hx; subst hx; exact ⟨some "/a", rfl⟩) rfl
      (Or.inr rfl),
   (c7_candidate_loop eachAllMissing [] [] ["/a", "/b"] "/c" respB .boomOther).2.2
      (by intro x _; exact ⟨some x, rfl⟩)⟩

/-- C10 (amended): the css file handler keys its cache lookups and
writes by the configured path value before any confinement resolution
and stores the entire response descriptor; on a hit it returns the
identical stored value without rebuilding — the descriptor, unless an
interleaved marshal write to the same key string has replaced it — and
on a miss it builds and stores the descriptor exactly once, so an
immediate re-invocation returns it unchanged.  The original claim's
guarantee for every sequence of requests fails when the configured
path is absolute and therefore equal to the resolved path; see the
counterexample. -/
theorem c10_handler_cache
    (relativeTo : String) (s : FileSettings) (p : String) (c : Cache)
    (v : CacheValue) :
    (cacheGet c p = some v → fileHandlerStep relativeTo s p c = ⟨c, v, false⟩)
    ∧ (cacheGet c p = none →
      (fileHandlerStep relativeTo s p c).didBuild = true
      ∧ (fileHandlerStep relativeTo s p c).result =
          .responseDescriptor { path := fileResponsePath p relativeTo s.confine,
                                settings := s }
      ∧ cacheGet (fileHandlerStep relativeTo s p c).cache p =
          some (fileHandlerStep relativeTo s p c).result
      ∧ fileHandlerStep relativeTo s p ((fileHandlerStep relativeTo s p c).cache) =
          ⟨(fileHandlerStep relativeTo s p c).cache,
           (fileHandlerStep relativeTo s p c).result, false⟩) := by
  constructor
  · intro h
    simp [fileHandlerStep, h]
  · intro h
    have hstep : fileHandlerStep relativeTo s p c =
        ⟨cacheSet c p (.responseDescriptor
            { path := fileResponsePath p relativeTo s.confine, settings := s }),
         .responseDescriptor
            { path := fileResponsePath p relativeTo s.confine, settings := s },
         true⟩ := by
      simp [fileHandlerStep, h]
    have hget : cacheGet (fileHandlerStep relativeTo s p c).cache p =
        some (.responseDescriptor
          { path := fileResponsePath p relativeTo s.confine, settings := s }) := by
      rw [hstep]
      exact cacheGet_set_self ..
    refine ⟨by rw [hstep], by rw [hstep], ?_, ?_⟩
    · rw [hget, hstep]
    · rw [fileHandlerStep]
      rw [hget, hstep]

/-- C10 counterexample: with the absolute configured path
`/www/a.css` under route root `/www`, the configured key equals the
resolved path, so the first request's marshal overwrites the stored
descriptor with a full record and the next handler invocation returns
that record — not the identical descriptor the handler stored. -/
theorem c10_counterexample :
    (fileHandlerStep "/www" {} "/www/a.css" []).result =
        .responseDescriptor { path := some "/www/a.css", settings := {} }
      ∧ (fileHandlerStep "/www" {} "/www/a.css"
          (runRequest envAllOk (fileHandlerStep "/www" {} "/www/a.css" []).cache
            (some "/www/a.css") {}).cache).result =
          .record ⟨none, none, "abcd", 4⟩
      ∧ (CacheValue.record ⟨none, none, "abcd", 4⟩) ≠
          .responseDescriptor { path := some "/www/a.css", settings := {} } :=
  ⟨rfl, rfl, by decide⟩

/-- Witness for the amended C10 theorem: a first invocation builds the
descriptor; a hit on an existing cache entry returns it unchanged
without building. -/
theorem c10_handler_cache_witness :
    (fileHandlerStep "/www" {} "a.css" []).didBuild = true
      ∧ fileHandlerStep "/www" {} "k" cacheWithRec0 =
          ⟨cacheWithRec0, .record rec0, false⟩ :=
  ⟨((c10_handler_cache "/www" {} "a.css" [] (.record rec0)).2 rfl).1,
   (c10_handler_cache "/www" {} "k" cacheWithRec0 (.record rec0)).1 rfl⟩

end HapiPostcss
